import Mathlib

/-!
# Shallow embedding of the SSEM (Manchester Baby) emulator

This file embeds the core of the `baby_emulator` crate in Lean 4:

* `src/core/instructions/mod.rs` — the `BabyInstruction` codec
  (`from_number`, `to_number`, `to_numbers`, `get_operand`);
* `src/core/mod.rs` — the `BabyModel` machine state and its transition
  methods (`jump`, `relative_jump`, `negate`, `store`, `subtract`, `test`),
  the fetch/decode/dispatch pipeline (`decode_instruction`,
  `dispatch_instruction`, `execute`) and the bounded runner (`run_loop`);
* `src/assembler/linker/mod.rs` — the two-pass linker
  (`inline_tags`, `position_tags`, `link_tags`, `link_parsed_lines`) over
  the parser's `LineType` / `Value` / `Instruction` records.

Embedding conventions:

* The crate is compiled with its default configuration: `WORD = i32`,
  `INSTR_LEN = 16`, so `INSTR_MASK = 0xFFFF`.
* Rust `u16` values are modelled as `Nat`, with `u16` wrapping arithmetic
  made explicit (`% 65536`); a cast `w as u16` of an `i32` word is
  `asU16 w = (w % 65536).toNat` (the low 16 bits of the two's-complement
  form).  `i32` values are `Int`, with the release-mode wrapping of
  arithmetic made explicit through `wrap32`.
* The 32-word memory `[i32; 32]` is a `List Int`; indexing is `List.getD`
  with default `0` (all source indices are pre-masked to `[0, 32)`).
* Rust `HashMap<String, i32>` built by `collect` is modelled as a function
  `String → Option Int` built by folding insert (which overwrites the
  previous binding for an existing key, exactly as `HashMap::insert`).
-/

namespace Baby

/-- `MEMORY_WORDS` from `src/core/mod.rs`. -/
def MEMORY_WORDS : Nat := 32

/-- `INSTR_LEN` in the default (no `i8` feature) configuration. -/
def INSTR_LEN : Nat := 16

/-- `INSTR_MASK = 0xFFFF >> (16 - INSTR_LEN)` from `src/core/mod.rs`. -/
def INSTR_MASK : Nat := 0xFFFF >>> (16 - INSTR_LEN)

/-- The Rust cast `w as u16` applied to an `i32`: low 16 bits of the
two's-complement representation, i.e. `w` modulo `2^16`. -/
def asU16 (w : Int) : Nat := (w % 65536).toNat

/-- Two's-complement wrapping of an integer into the `i32` range,
the release-mode behaviour of `i32` arithmetic. -/
def wrap32 (x : Int) : Int := (x + 2 ^ 31) % 2 ^ 32 - 2 ^ 31

/-- Memory indexing `main_store[i]`: `List.getD` with default `0`. -/
def memGet (ms : List Int) (i : Nat) : Int := ms.getD i 0

/-- `BabyInstruction` from `src/core/instructions/mod.rs`.  Operands are
`u16` (modelled as `Nat`); `AbsoluteValue` carries a raw `i32` word. -/
inductive BabyInstruction where
  | Jump (operand : Nat)
  | RelativeJump (operand : Nat)
  | Negate (operand : Nat)
  | Store (operand : Nat)
  | Subtract (operand : Nat)
  | SkipNextIfNegative
  | Stop
  | AbsoluteValue (value : Int)
deriving DecidableEq, Repr

/-- `BabyInstruction::from_number` from `src/core/instructions/mod.rs`:
opcode is `value >> 13`, operand is `value & 0x1F`; the Rust arm
`0b001 | 0b101 => Subtract` is split into two identical arms. -/
def BabyInstruction.from_number (value : Nat) : BabyInstruction :=
  let opcode := value >>> 13
  let operand := value &&& 0x1F
  match opcode with
  | 0b000 => BabyInstruction.Jump operand
  | 0b100 => BabyInstruction.RelativeJump operand
  | 0b010 => BabyInstruction.Negate operand
  | 0b110 => BabyInstruction.Store operand
  | 0b001 => BabyInstruction.Subtract operand
  | 0b101 => BabyInstruction.Subtract operand
  | 0b011 => BabyInstruction.SkipNextIfNegative
  | _ => BabyInstruction.Stop

/-- `BabyInstruction::to_number`: pack opcode and masked operand into an
`i32`; `AbsoluteValue` passes its word through unchanged. -/
def BabyInstruction.to_number : BabyInstruction → Int
  | BabyInstruction.Jump operand => ((0b000 <<< 13) ||| (operand &&& 0x1F) : Nat)
  | BabyInstruction.RelativeJump operand => ((0b100 <<< 13) ||| (operand &&& 0x1F) : Nat)
  | BabyInstruction.Negate operand => ((0b010 <<< 13) ||| (operand &&& 0x1F) : Nat)
  | BabyInstruction.Store operand => ((0b110 <<< 13) ||| (operand &&& 0x1F) : Nat)
  | BabyInstruction.Subtract operand => ((0b001 <<< 13) ||| (operand &&& 0x1F) : Nat)
  | BabyInstruction.SkipNextIfNegative => ((0b011 <<< 13 : Nat))
  | BabyInstruction.Stop => ((0b111 <<< 13 : Nat))
  | BabyInstruction.AbsoluteValue v => v

/-- `BabyInstruction::to_numbers`: a 32-word image whose entry `i` is the
encoding of `instructions[i]`, or `0` past the end of the program (the
source maps `i` over `[1, 32]` and reads `instructions.get(i - 1)`;
re-indexed here from `0`). -/
def BabyInstruction.to_numbers (instructions : List BabyInstruction) : List Int :=
  (List.range MEMORY_WORDS).map (fun i =>
    match instructions.get? i with
    | some instr => instr.to_number
    | none => 0)

/-- `BabyInstruction::get_operand`: the operand masked with `0x1F`, or
`0` for the operand-less variants and `AbsoluteValue`. -/
def BabyInstruction.get_operand : BabyInstruction → Nat
  | BabyInstruction.Jump operand => operand &&& 0x1F
  | BabyInstruction.RelativeJump operand => operand &&& 0x1F
  | BabyInstruction.Negate operand => operand &&& 0x1F
  | BabyInstruction.Store operand => operand &&& 0x1F
  | BabyInstruction.Subtract operand => operand &&& 0x1F
  | BabyInstruction.SkipNextIfNegative => 0
  | BabyInstruction.Stop => 0
  | BabyInstruction.AbsoluteValue _ => 0

/-- `BabyModel` from `src/core/mod.rs`: 32-word memory, `i32` accumulator,
`u16` program counter (`instruction_address`) and `u16` instruction
register (`instruction`). -/
structure BabyModel where
  main_store : List Int
  accumulator : Int
  instruction_address : Nat
  instruction : Nat
deriving DecidableEq, Repr

/-- `BabyModel::new`: the all-zero model. -/
def BabyModel.new : BabyModel :=
  { main_store := List.replicate MEMORY_WORDS 0
    accumulator := 0
    instruction_address := 0
    instruction := 0 }

/-- `BabyModel::new_with_program`: loads the given image, starts at
address `0` with the instruction register eagerly set to
`main_store[0] as u16`. -/
def BabyModel.new_with_program (main_store : List Int) : BabyModel :=
  { main_store := main_store
    accumulator := 0
    instruction_address := 0
    instruction := asU16 (memGet main_store 0) }

/-- `BabyModel::new_example_program`: the fixed demonstration program
`[Negate(5), Subtract(5), Store(6), Negate(6), Stop, AbsoluteValue(-5)]`
assembled through `to_numbers`. -/
def BabyModel.new_example_program : BabyModel :=
  let instrs : List BabyInstruction :=
    [BabyInstruction.Negate 5, BabyInstruction.Subtract 5,
     BabyInstruction.Store 6, BabyInstruction.Negate 6,
     BabyInstruction.Stop, BabyInstruction.AbsoluteValue (-5)]
  let main_store := BabyInstruction.to_numbers instrs
  { main_store := main_store
    accumulator := 0
    instruction_address := 0
    instruction := asU16 (memGet main_store 0) }

/-- `BabyModel::jump`: program counter becomes `address as u16 & 0x1F`;
the next instruction is fetched eagerly and masked with `INSTR_MASK`. -/
def BabyModel.jump (s : BabyModel) (address : Int) : BabyModel :=
  let instruction_address := asU16 address &&& 0x1F
  let instruction := asU16 (memGet s.main_store instruction_address)
  { main_store := s.main_store
    accumulator := s.accumulator
    instruction_address := instruction_address
    instruction := instruction &&& INSTR_MASK }

/-- `BabyModel::relative_jump`: program counter becomes
`(instruction_address + offset as u16) & 0x1F`, the `u16` addition
wrapping modulo `2^16`. -/
def BabyModel.relative_jump (s : BabyModel) (offset : Int) : BabyModel :=
  let instruction_address := ((s.instruction_address + asU16 offset) % 65536) &&& 0x1F
  let instruction := asU16 (memGet s.main_store instruction_address)
  { main_store := s.main_store
    accumulator := s.accumulator
    instruction_address := instruction_address
    instruction := instruction &&& INSTR_MASK }

/-- `BabyModel::negate`: accumulator becomes `-value` (i32 wrapping);
program counter becomes `(instruction_address + 1) & 0x1F`. -/
def BabyModel.negate (s : BabyModel) (value : Int) : BabyModel :=
  let instruction_address := ((s.instruction_address + 1) % 65536) &&& 0x1F
  let instruction := asU16 (memGet s.main_store instruction_address)
  { main_store := s.main_store
    accumulator := wrap32 (-value)
    instruction_address := instruction_address
    instruction := instruction &&& INSTR_MASK }

/-- `BabyModel::store`: writes the accumulator at `(address & 0x1F)` into a
copy of the memory, then advances the program counter and fetches the next
instruction from the updated memory. -/
def BabyModel.store (s : BabyModel) (address : Int) : BabyModel :=
  let address : Nat := (address % 32).toNat
  let main_store := s.main_store.set (address &&& 0x1F) s.accumulator
  let instruction_address := ((s.instruction_address + 1) % 65536) &&& 0x1F
  let instruction := asU16 (memGet main_store instruction_address)
  { main_store := main_store
    accumulator := s.accumulator
    instruction_address := instruction_address
    instruction := instruction &&& INSTR_MASK }

/-- `BabyModel::subtract`: accumulator becomes `accumulator - value`
(i32 wrapping); program counter becomes `(instruction_address + 1) & 0x1F`. -/
def BabyModel.subtract (s : BabyModel) (value : Int) : BabyModel :=
  let instruction_address := ((s.instruction_address + 1) % 65536) &&& 0x1F
  let instruction := asU16 (memGet s.main_store instruction_address)
  { main_store := s.main_store
    accumulator := wrap32 (s.accumulator - value)
    instruction_address := instruction_address
    instruction := instruction &&& INSTR_MASK }

/-- `BabyModel::test`: skips one extra address when the accumulator is
negative; the program counter is masked with `0x1F` as everywhere else. -/
def BabyModel.test (s : BabyModel) : BabyModel :=
  let instruction_address :=
    (if s.accumulator < 0 then (s.instruction_address + 2) % 65536
     else (s.instruction_address + 1) % 65536) &&& 0x1F
  let instruction := asU16 (memGet s.main_store instruction_address)
  { main_store := s.main_store
    accumulator := s.accumulator
    instruction_address := instruction_address
    instruction := instruction &&& INSTR_MASK }

/-- `BabyErrors` from `src/core/errors.rs`, with the `Stop` and
`IterationsExceeded` payload structs flattened into the constructors. -/
inductive BabyErrors where
  | Stop (stopped_at : Nat)
  | IterationExceeded (max_iter : Nat) (end_model : BabyModel)
deriving DecidableEq, Repr

/-- `BabyModel::decode_instruction`: decode the instruction register and
dereference its (already masked) operand. -/
def BabyModel.decode_instruction (s : BabyModel) : Int × BabyInstruction :=
  let instruction := BabyInstruction.from_number s.instruction
  let operand := instruction.get_operand
  let operand_value := memGet s.main_store operand
  (operand_value, instruction)

/-- `BabyModel::dispatch_instruction`: call the handler for the decoded
variant; `Stop` returns the error carrying the current program counter;
the Rust catch-all arm (`AbsoluteValue`) returns a clone of the state. -/
def BabyModel.dispatch_instruction (s : BabyModel) (instruction : BabyInstruction)
    (operand_value : Int) : Except BabyErrors BabyModel :=
  match instruction with
  | BabyInstruction.Jump _ => Except.ok (s.jump operand_value)
  | BabyInstruction.RelativeJump _ => Except.ok (s.relative_jump operand_value)
  | BabyInstruction.Negate _ => Except.ok (s.negate operand_value)
  | BabyInstruction.Store _ => Except.ok (s.store operand_value)
  | BabyInstruction.Subtract _ => Except.ok (s.subtract operand_value)
  | BabyInstruction.SkipNextIfNegative => Except.ok s.test
  | BabyInstruction.Stop => Except.error (BabyErrors.Stop s.instruction_address)
  | BabyInstruction.AbsoluteValue _ => Except.ok s

/-- `BabyModel::execute`: decode then dispatch. -/
def BabyModel.execute (s : BabyModel) : Except BabyErrors BabyModel :=
  let p := s.decode_instruction
  s.dispatch_instruction p.2 p.1

/-- The loop body of `BabyModel::run_loop`: run `fuel` more iterations,
reporting `IterationExceeded` with the originally configured `max_iter`
when the fuel runs out. -/
def BabyModel.run_loop_go (max_iter : Nat) : BabyModel → Nat → BabyModel × BabyErrors
  | m, 0 => (m, BabyErrors.IterationExceeded max_iter m)
  | m, Nat.succ fuel =>
    match m.execute with
    | Except.ok m2 => BabyModel.run_loop_go max_iter m2 fuel
    | Except.error e => (m, e)

/-- `BabyModel::run_loop`: iterate `execute` up to `max_iter` times,
returning the last model together with the error that ended the loop. -/
def BabyModel.run_loop (s : BabyModel) (max_iter : Nat) : BabyModel × BabyErrors :=
  BabyModel.run_loop_go max_iter s max_iter

/-- Iterate `execute` exactly `n` times, `none` if an error occurs first;
used to state which model `run_loop` pairs with `IterationExceeded`. -/
def BabyModel.execN (s : BabyModel) : Nat → Option BabyModel
  | 0 => some s
  | Nat.succ n =>
    match s.execute with
    | Except.ok m2 => m2.execN n
    | Except.error _ => none

/-- `Value` from `src/assembler/parser/mod.rs`: a literal `i32` or a tag
reference. -/
inductive Value where
  | Value (v : Int)
  | Tag (t : String)
deriving DecidableEq, Repr

/-- `Instruction` from `src/assembler/parser/mod.rs`: a symbolic
instruction whose operand is a `Value` expression. -/
inductive Instruction where
  | Jump (v : Value)
  | RelativeJump (v : Value)
  | Negate (v : Value)
  | Store (v : Value)
  | Subtract (v : Value)
  | Test
  | Stop
deriving DecidableEq, Repr

/-- `Instruction::get_operand` from `src/assembler/parser/mod.rs`. -/
def Instruction.get_operand : Instruction → Value
  | Instruction.Jump v => v
  | Instruction.RelativeJump v => v
  | Instruction.Negate v => v
  | Instruction.Store v => v
  | Instruction.Subtract v => v
  | Instruction.Test => Value.Value 0
  | Instruction.Stop => Value.Value 0

/-- `LineType` from `src/assembler/parser/mod.rs`. -/
inductive LineType where
  | Tag (t : String)
  | Absolute (v : Value)
  | Instruction (i : Instruction)
deriving DecidableEq, Repr

/-- `UnlinkedData` from `src/assembler/linker/mod.rs`. -/
inductive UnlinkedData where
  | Absolute (v : Value)
  | Instruction (i : Instruction)
deriving DecidableEq, Repr

/-- `TagError` from `src/assembler/linker/errors.rs`. -/
inductive TagError where
  | UnknownTagName (name : String)
deriving DecidableEq, Repr

/-- `LinkingError` from `src/assembler/linker/errors.rs`, with the
`MemoryExceedingError { linked_size }` struct flattened. -/
inductive LinkingError where
  | TagError (e : TagError)
  | MemoryExceedingError (linked_size : Nat)
deriving DecidableEq, Repr

/-- The symbol table: the model of `HashMap<String, i32>`. -/
def TagMap : Type := String → Option Int

/-- `HashMap::insert`: bind `k` to `v`, overwriting any previous binding. -/
def TagMap.insert (m : TagMap) (k : String) (v : Int) : TagMap :=
  fun q => if q = k then some v else m q

/-- The empty symbol table. -/
def TagMap.empty : TagMap := fun _ => none

/-- `UnlinkedData::get_tag`: look a tag name up, returning the name itself
on failure. -/
def UnlinkedData.get_tag (tag : String) (tags : TagMap) : Except String Int :=
  match tags tag with
  | some v => Except.ok v
  | none => Except.error tag

/-- `UnlinkedData::resolve_value`: a literal passes through, a tag
reference is looked up. -/
def UnlinkedData.resolve_value (val : Value) (tags : TagMap) : Except String Int :=
  match val with
  | Value.Tag tag => UnlinkedData.get_tag tag tags
  | Value.Value v => Except.ok v

/-- `UnlinkedData::resolve_absolute_value`: wrap a resolved value in
`AbsoluteValue`, turning a failed lookup into `UnknownTagName`. -/
def UnlinkedData.resolve_absolute_value (val : Value) (tags : TagMap) :
    Except TagError BabyInstruction :=
  match UnlinkedData.resolve_value val tags with
  | Except.ok v => Except.ok (BabyInstruction.AbsoluteValue v)
  | Except.error v => Except.error (TagError.UnknownTagName v)

/-- `UnlinkedData::resolve_instruction`: resolve the operand expression
(the resolved `i32` is cast `as u16`), then rebuild the machine
instruction. -/
def UnlinkedData.resolve_instruction (instr : Baby.Instruction) (tags : TagMap) :
    Except TagError BabyInstruction :=
  match UnlinkedData.resolve_value instr.get_operand tags with
  | Except.error v => Except.error (TagError.UnknownTagName v)
  | Except.ok v0 =>
    let val := asU16 v0
    match instr with
    | Instruction.Jump _ => Except.ok (BabyInstruction.Jump val)
    | Instruction.RelativeJump _ => Except.ok (BabyInstruction.RelativeJump val)
    | Instruction.Negate _ => Except.ok (BabyInstruction.Negate val)
    | Instruction.Store _ => Except.ok (BabyInstruction.Store val)
    | Instruction.Subtract _ => Except.ok (BabyInstruction.Subtract val)
    | Instruction.Test => Except.ok BabyInstruction.SkipNextIfNegative
    | Instruction.Stop => Except.ok BabyInstruction.Stop

/-- `UnlinkedData::resolve`. -/
def UnlinkedData.resolve (d : UnlinkedData) (tags : TagMap) :
    Except TagError BabyInstruction :=
  match d with
  | UnlinkedData.Absolute v => UnlinkedData.resolve_absolute_value v tags
  | UnlinkedData.Instruction c => UnlinkedData.resolve_instruction c tags

/-- `inline_tags` from `src/assembler/linker/mod.rs`: pair every line with
the tag found on the immediately preceding line (index `0` looks at
itself), then keep only the real (`Absolute` / `Instruction`) lines. -/
def inline_tags (lines : List LineType) : List (Option String × UnlinkedData) :=
  (lines.enum.map (fun p =>
    let i := if p.1 = 0 then 1 else p.1
    match lines.get? (i - 1) with
    | some (LineType.Tag tag) => (some tag, p.2)
    | _ => ((none : Option String), p.2))).filterMap (fun p =>
      match p.2 with
      | LineType.Absolute v => some (p.1, UnlinkedData.Absolute v)
      | LineType.Instruction v => some (p.1, UnlinkedData.Instruction v)
      | _ => none)

/-- `position_tags`: enumerate the inlined lines, keep the tagged ones as
`(name, index)` pairs and collect them into the hash map (later inserts
overwrite earlier ones, as `HashMap`'s `FromIterator` does). -/
def position_tags (lines : List (Option String × UnlinkedData)) : TagMap :=
  (lines.enum.filterMap (fun p =>
    match p.2.1 with
    | some v => some (v, (p.1 : Int))
    | none => none)).foldl (fun tbl kv => tbl.insert kv.1 kv.2) TagMap.empty

/-- The resolution loop inside `link_tags`: resolve each line in order,
failing fast with the first `TagError`. -/
def link_tags_loop (tag_values : TagMap) :
    List UnlinkedData → Except LinkingError (List BabyInstruction)
  | [] => Except.ok []
  | line :: rest =>
    match line.resolve tag_values with
    | Except.ok v =>
      match link_tags_loop tag_values rest with
      | Except.ok instructions => Except.ok (v :: instructions)
      | Except.error e => Except.error e
    | Except.error e => Except.error (LinkingError.TagError e)

/-- `link_tags` from `src/assembler/linker/mod.rs`: reject programs longer
than the 32-word memory first, then resolve every line in order. -/
def link_tags (preprocessed_lines : List UnlinkedData) (tag_values : TagMap) :
    Except LinkingError (List BabyInstruction) :=
  if preprocessed_lines.length > MEMORY_WORDS then
    Except.error (LinkingError.MemoryExceedingError preprocessed_lines.length)
  else
    link_tags_loop tag_values preprocessed_lines

/-- `LinkerData`: the linked program together with the tag table. -/
structure LinkerData where
  instructions : List BabyInstruction
  tags : TagMap

/-- `link_parsed_lines` from `src/assembler/linker/mod.rs`. -/
def link_parsed_lines (lines : List LineType) : Except LinkingError LinkerData :=
  let inlined_tags := inline_tags lines
  let tag_values := position_tags inlined_tags
  let preprocessed_lines := inlined_tags.map (fun p => p.2)
  match link_tags preprocessed_lines tag_values with
  | Except.ok processed_lines => Except.ok (LinkerData.mk processed_lines tag_values)
  | Except.error e => Except.error e

/-! ## Helper lemmas -/

/-- Masking with `0x1F` is reduction modulo `32`. -/
theorem and31_eq_mod (x : Nat) : x &&& 31 = x % 32 := by
  have h := Nat.and_pow_two_sub_one_eq_mod x 5
  norm_num at h
  exact h

/-- A `0x1F`-masked value is a valid memory address. -/
theorem and31_lt (x : Nat) : x &&& 31 < 32 := by
  rw [and31_eq_mod]
  omega

/-- The `as u16` cast lands in the `u16` range. -/
theorem asU16_lt (w : Int) : asU16 w < 65536 := by
  unfold asU16
  omega

/-- The `as u16` cast fixes naturals that already fit in 16 bits. -/
theorem asU16_ofNat (n : Nat) (h : n < 65536) : asU16 (n : Int) = n := by
  unfold asU16
  omega

/-- Masking a 16-bit value with `INSTR_MASK` changes nothing in the
default configuration. -/
theorem and_INSTR_MASK_eq (n : Nat) (h : n < 65536) : n &&& INSTR_MASK = n := by
  have h2 : INSTR_MASK = 65535 := rfl
  have h3 := Nat.and_pow_two_sub_one_eq_mod n 16
  norm_num at h3
  rw [h2, h3]
  omega

/-! ## C10 — a stray `AbsoluteValue` dispatched to the engine is a no-op -/

/-- C10: for every machine state `s`, dereferenced operand value `w` and
raw word `v`, `dispatch_instruction (AbsoluteValue v) w` returns `Ok` of a
state structurally equal to `s`: the Rust catch-all arm clones the state,
so no failure path guards the invariant that `AbsoluteValue` never
reaches the engine. -/
theorem dispatch_absolute_value_noop (s : BabyModel) (w v : Int) :
    s.dispatch_instruction (BabyInstruction.AbsoluteValue v) w = Except.ok s := rfl

/-! ## C1 — encode/decode near-inverse and the Subtract aliasing quirk -/

/-- Decoding the `Jump` encoding, for each of the 32 masked operands. -/
theorem from_number_enc_jump : ∀ r : Fin 32,
    BabyInstruction.from_number (asU16 (((0b000 <<< 13) ||| r.val : Nat) : Int)) =
      BabyInstruction.Jump r.val := by decide

/-- Decoding the `RelativeJump` encoding, for each of the 32 masked operands. -/
theorem from_number_enc_relative_jump : ∀ r : Fin 32,
    BabyInstruction.from_number (asU16 (((0b100 <<< 13) ||| r.val : Nat) : Int)) =
      BabyInstruction.RelativeJump r.val := by decide

/-- Decoding the `Negate` encoding, for each of the 32 masked operands. -/
theorem from_number_enc_negate : ∀ r : Fin 32,
    BabyInstruction.from_number (asU16 (((0b010 <<< 13) ||| r.val : Nat) : Int)) =
      BabyInstruction.Negate r.val := by decide

/-- Decoding the `Store` encoding, for each of the 32 masked operands. -/
theorem from_number_enc_store : ∀ r : Fin 32,
    BabyInstruction.from_number (asU16 (((0b110 <<< 13) ||| r.val : Nat) : Int)) =
      BabyInstruction.Store r.val := by decide

/-- Decoding the `Subtract` encoding, for each of the 32 masked operands. -/
theorem from_number_enc_subtract : ∀ r : Fin 32,
    BabyInstruction.from_number (asU16 (((0b001 <<< 13) ||| r.val : Nat) : Int)) =
      BabyInstruction.Subtract r.val := by decide

/-- Decoding accepts both opcode patterns `001` and `101` for `Subtract`. -/
theorem from_number_subtract_patterns : ∀ r : Fin 32,
    BabyInstruction.from_number ((0b001 <<< 13) ||| r.val) =
      BabyInstruction.Subtract r.val ∧
    BabyInstruction.from_number ((0b101 <<< 13) ||| r.val) =
      BabyInstruction.Subtract r.val := by decide

/-- The opcode field of every encoded `Subtract` is the fixed pattern `001`. -/
theorem to_number_subtract_opcode_fin : ∀ r : Fin 32,
    asU16 (((0b001 <<< 13) ||| r.val : Nat) : Int) >>> 13 = 0b001 := by decide

/-- C1 (amended): encode-then-decode returns each operand-bearing variant
with its operand masked to 5 bits (hence exactly round-trips whenever the
operand already fits in 5 bits) — `Subtract` is not special in this
respect; `SkipNextIfNegative` and `Stop` round-trip exactly; `from_number`
maps both opcode patterns `001` and `101` carrying the same 5-bit operand
to `Subtract`, while `to_number` encodes `Subtract` with the single fixed
pattern `001`.  `AbsoluteValue` is excluded: its raw word decodes as an
instruction. -/
theorem codec_near_inverse :
    (∀ operand : Nat,
      BabyInstruction.from_number (asU16 (BabyInstruction.Jump operand).to_number) =
        BabyInstruction.Jump (operand &&& 0x1F) ∧
      BabyInstruction.from_number (asU16 (BabyInstruction.RelativeJump operand).to_number) =
        BabyInstruction.RelativeJump (operand &&& 0x1F) ∧
      BabyInstruction.from_number (asU16 (BabyInstruction.Negate operand).to_number) =
        BabyInstruction.Negate (operand &&& 0x1F) ∧
      BabyInstruction.from_number (asU16 (BabyInstruction.Store operand).to_number) =
        BabyInstruction.Store (operand &&& 0x1F) ∧
      BabyInstruction.from_number (asU16 (BabyInstruction.Subtract operand).to_number) =
        BabyInstruction.Subtract (operand &&& 0x1F)) ∧
    BabyInstruction.from_number (asU16 BabyInstruction.SkipNextIfNegative.to_number) =
      BabyInstruction.SkipNextIfNegative ∧
    BabyInstruction.from_number (asU16 BabyInstruction.Stop.to_number) =
      BabyInstruction.Stop ∧
    (∀ operand : Nat,
      BabyInstruction.from_number ((0b001 <<< 13) ||| (operand &&& 0x1F)) =
        BabyInstruction.Subtract (operand &&& 0x1F) ∧
      BabyInstruction.from_number ((0b101 <<< 13) ||| (operand &&& 0x1F)) =
        BabyInstruction.Subtract (operand &&& 0x1F)) ∧
    (∀ operand : Nat,
      asU16 (BabyInstruction.Subtract operand).to_number >>> 13 = 0b001) := by
  refine ⟨?_, by decide, by decide, ?_, ?_⟩
  · intro operand
    exact ⟨from_number_enc_jump ⟨operand &&& 0x1F, and31_lt operand⟩,
      from_number_enc_relative_jump ⟨operand &&& 0x1F, and31_lt operand⟩,
      from_number_enc_negate ⟨operand &&& 0x1F, and31_lt operand⟩,
      from_number_enc_store ⟨operand &&& 0x1F, and31_lt operand⟩,
      from_number_enc_subtract ⟨operand &&& 0x1F, and31_lt operand⟩⟩
  · intro operand
    exact from_number_subtract_patterns ⟨operand &&& 0x1F, and31_lt operand⟩
  · intro operand
    exact to_number_subtract_opcode_fin ⟨operand &&& 0x1F, and31_lt operand⟩

/-- C1 counterexample: the claimed exact round trip for non-`Subtract`
variants fails at `Jump 32` (which decodes back as `Jump 0`) and at
`AbsoluteValue 0` (which decodes back as `Jump 0`). -/
theorem codec_round_trip_counterexample :
    BabyInstruction.from_number (asU16 (BabyInstruction.Jump 32).to_number) =
      BabyInstruction.Jump 0 ∧
    BabyInstruction.Jump 0 ≠ BabyInstruction.Jump 32 ∧
    BabyInstruction.from_number (asU16 (BabyInstruction.AbsoluteValue 0).to_number) ≠
      BabyInstruction.AbsoluteValue 0 := by decide


/-! ## C2 â machine-state invariant: eager fetch and 5-bit program counter -/

/-- The invariant: the program counter addresses the 32-word memory and
the instruction register holds the 16-bit instruction field of the word
at the program counter of the same state. -/
def MachineInv (s : BabyModel) : Prop :=
  s.instruction_address < 32 ∧
  s.instruction = asU16 (memGet s.main_store s.instruction_address)

/-- C2: every state produced by `new`, `new_with_program` or any of the
six transition methods has a program counter in `[0, 32)` and an
instruction register equal to the instruction field of
`memory[program_counter]` of that same state â the fetch is eager, on
every transition (for `store`, from the updated memory). -/
theorem machine_state_invariant :
    MachineInv BabyModel.new ∧
    (∀ ms : List Int, MachineInv (BabyModel.new_with_program ms)) ∧
    (∀ (s : BabyModel) (v : Int), MachineInv (s.jump v)) ∧
    (∀ (s : BabyModel) (v : Int), MachineInv (s.relative_jump v)) ∧
    (∀ (s : BabyModel) (v : Int), MachineInv (s.negate v)) ∧
    (∀ (s : BabyModel) (v : Int), MachineInv (s.store v)) ∧
    (∀ (s : BabyModel) (v : Int), MachineInv (s.subtract v)) ∧
    (∀ s : BabyModel, MachineInv s.test) := by
  refine ⟨⟨by decide, by decide⟩, ?_, ?_, ?_, ?_, ?_, ?_, ?_⟩
  · intro ms
    exact ⟨by norm_num [BabyModel.new_with_program], rfl⟩
  · intro s v
    exact ⟨and31_lt _, and_INSTR_MASK_eq _ (asU16_lt _)⟩
  · intro s v
    exact ⟨and31_lt _, and_INSTR_MASK_eq _ (asU16_lt _)⟩
  · intro s v
    exact ⟨and31_lt _, and_INSTR_MASK_eq _ (asU16_lt _)⟩
  · intro s v
    exact ⟨and31_lt _, and_INSTR_MASK_eq _ (asU16_lt _)⟩
  · intro s v
    exact ⟨and31_lt _, and_INSTR_MASK_eq _ (asU16_lt _)⟩
  · intro s
    exact ⟨and31_lt _, and_INSTR_MASK_eq _ (asU16_lt _)⟩

/-! ## C3 â the engine has exactly two outcomes -/

/-- A failing dispatch can only be the `Stop` signal, carrying the program
counter of the dispatching state. -/
theorem dispatch_error_eq (s : BabyModel) (instr : BabyInstruction) (ov : Int)
    (e : BabyErrors) (h : s.dispatch_instruction instr ov = Except.error e) :
    e = BabyErrors.Stop s.instruction_address ∧ instr = BabyInstruction.Stop := by
  cases instr <;> simp [BabyModel.dispatch_instruction] at h <;> simp [h]

/-- A failing `execute` can only be the `Stop` signal for a state whose
instruction register decodes to `Stop`. -/
theorem execute_error_eq (s : BabyModel) (e : BabyErrors)
    (h : s.execute = Except.error e) :
    e = BabyErrors.Stop s.instruction_address ∧
      s.decode_instruction.2 = BabyInstruction.Stop := by
  have h2 := dispatch_error_eq s s.decode_instruction.2 s.decode_instruction.1 e h
  exact h2

/-- The two possible results of the bounded run loop, for any fuel. -/
theorem run_loop_go_cases (M k : Nat) (s : BabyModel) :
    (∃ m : BabyModel,
      BabyModel.run_loop_go M s k = (m, BabyErrors.Stop m.instruction_address) ∧
      m.decode_instruction.2 = BabyInstruction.Stop) ∨
    (∃ m : BabyModel, s.execN k = some m ∧
      BabyModel.run_loop_go M s k = (m, BabyErrors.IterationExceeded M m)) := by
  induction k generalizing s with
  | zero => exact Or.inr ⟨s, rfl, rfl⟩
  | succ k ih =>
    cases hex : s.execute with
    | ok m2 =>
      rcases ih m2 with ⟨m, hrun, hdec⟩ | ⟨m, hN, hrun⟩
      · refine Or.inl ⟨m, ?_, hdec⟩
        simpa [BabyModel.run_loop_go, hex] using hrun
      · refine Or.inr ⟨m, ?_, ?_⟩
        · simpa [BabyModel.execN, hex] using hN
        · simpa [BabyModel.run_loop_go, hex] using hrun
    | error e =>
      obtain ⟨he, hdec⟩ := execute_error_eq s e hex
      subst he
      refine Or.inl ⟨s, ?_, hdec⟩
      simp [BabyModel.run_loop_go, hex]

/-- C3: for every initial state and bound `n`, `run_loop n` returns either
a final state paired with the `Stop` signal carrying that state’s program
counter (the address at which the `Stop` instruction was encountered), or
the state reached after exactly `n` `execute` steps paired with
`IterationExceeded` carrying the configured limit `n` and that same state;
no other outcome is possible. -/
theorem run_loop_outcomes (s : BabyModel) (n : Nat) :
    (∃ m : BabyModel,
      s.run_loop n = (m, BabyErrors.Stop m.instruction_address) ∧
      m.decode_instruction.2 = BabyInstruction.Stop) ∨
    (∃ m : BabyModel, s.execN n = some m ∧
      s.run_loop n = (m, BabyErrors.IterationExceeded n m)) :=
  run_loop_go_cases n n s


/-! ## C4 â the example program run to termination -/

/-- C4 (amended): the example program, assembled into a memory image and
run until the `Stop` signal, stops at address `4` and leaves the
accumulator equal to `0` â the dispatcher hands `store` the dereferenced
operand value `memory[6] = 0`, so `Store(6)` writes the intermediate
result `10` to address `0`, and the final `Negate(6)` loads the untouched
`memory[6] = 0`. -/
theorem example_program_final_state :
    ∃ final : BabyModel,
      BabyModel.new_example_program.run_loop 100 = (final, BabyErrors.Stop 4) ∧
      final.accumulator = 0 := by
  exact ⟨(BabyModel.new_example_program.run_loop 100).1, by decide, by decide⟩

/-- C4 counterexample: running the example program to the `Stop` signal
leaves the accumulator equal to `0`, not `5` as claimed. -/
theorem example_program_accumulator_counterexample :
    (BabyModel.new_example_program.run_loop 100).2 = BabyErrors.Stop 4 ∧
    (BabyModel.new_example_program.run_loop 100).1.accumulator = 0 ∧
    (BabyModel.new_example_program.run_loop 100).1.accumulator ≠ 5 := by decide

/-! ## C5 â relative-jump wraparound -/

/-- C5: for every machine state and every operand value `v`,
`relative_jump v` yields the program counter `(old + v)` reduced modulo
`32` (masked to 5 bits), leaving accumulator and memory unchanged â and
never fails, being a total function; concretely, with memory `[0..31]`
and program counter `2`, `relative_jump 30` yields program counter `0`
and an instruction register holding `memory[0]`. -/
theorem relative_jump_wraparound :
    (∀ (s : BabyModel) (v : Int),
      ((s.relative_jump v).instruction_address : Int) =
        ((s.instruction_address : Int) + v) % 32 ∧
      (s.relative_jump v).accumulator = s.accumulator ∧
      (s.relative_jump v).main_store = s.main_store) ∧
    ((BabyModel.mk ((List.range 32).map Int.ofNat) 0 2 2).relative_jump 30).instruction_address
      = 0 ∧
    ((BabyModel.mk ((List.range 32).map Int.ofNat) 0 2 2).relative_jump 30).instruction
      = asU16 (memGet ((List.range 32).map Int.ofNat) 0) := by
  refine ⟨?_, by decide, by decide⟩
  intro s v
  refine ⟨?_, rfl, rfl⟩
  have h : (s.relative_jump v).instruction_address
      = ((s.instruction_address + (v % 65536).toNat) % 65536) % 32 := by
    simp only [BabyModel.relative_jump, asU16, and31_eq_mod]
  rw [h]
  omega

/-! ## C6 â store frame effect -/

/-- C6: for every machine state and address `a`, `store a` yields a state
whose memory is the old memory with cell `a & 0x1F` set to the
accumulator and all other cells unchanged, whose accumulator is
unchanged, and whose program counter is `(old + 1) % 32`; the input state
is untouched (the memory is copied, the copy is updated and returned â
transitions are pure functions in this embedding). -/
theorem store_frame_effect (s : BabyModel) (a : Int) :
    (s.store a).main_store = s.main_store.set ((a % 32).toNat) s.accumulator ∧
    ((a % 32).toNat < s.main_store.length →
      memGet (s.store a).main_store ((a % 32).toNat) = s.accumulator) ∧
    (∀ j : Nat, j ≠ (a % 32).toNat →
      memGet (s.store a).main_store j = memGet s.main_store j) ∧
    (s.store a).accumulator = s.accumulator ∧
    (s.store a).instruction_address = (s.instruction_address + 1) % 32 := by
  have hmask : ((a % 32).toNat &&& 31) = (a % 32).toNat := by
    rw [and31_eq_mod]
    omega
  have hms : (s.store a).main_store = s.main_store.set ((a % 32).toNat) s.accumulator := by
    simp only [BabyModel.store, hmask]
  refine ⟨hms, ?_, ?_, rfl, ?_⟩
  · intro hlen
    rw [hms]
    simp [memGet, List.getD_eq_getElem?_getD, List.getElem?_set_self, hlen]
  · intro j hj
    rw [hms]
    simp [memGet, List.getD_eq_getElem?_getD, List.getElem?_set_ne (Ne.symm hj)]
  · have h : (s.store a).instruction_address
        = ((s.instruction_address + 1) % 65536) % 32 := by
      simp only [BabyModel.store, and31_eq_mod]
    rw [h]
    omega

/-- C6 witness: the frame effect of `store 33` on the all-zero model with
the cell index `33 & 0x1F = 1`. -/
theorem store_frame_effect_witness :
    (BabyModel.new.store 33).main_store
      = BabyModel.new.main_store.set (((33 : Int) % 32).toNat) BabyModel.new.accumulator ∧
    memGet (BabyModel.new.store 33).main_store (((33 : Int) % 32).toNat)
      = BabyModel.new.accumulator ∧
    memGet (BabyModel.new.store 33).main_store 2 = memGet BabyModel.new.main_store 2 := by
  obtain ⟨h1, h2, h3, h4, h5⟩ := store_frame_effect BabyModel.new 33
  exact ⟨h1, h2 (by decide), h3 2 (by decide)⟩


/-! ## C7 â an unknown tag fails the link fast -/

/-- The resolution loop fails with the first line that does not resolve,
when everything before it resolves. -/
theorem link_tags_loop_append_error (tags : TagMap) (l1 l2 : List UnlinkedData)
    (bad : UnlinkedData) (e : TagError)
    (hok : ∀ d ∈ l1, ∃ r, d.resolve tags = Except.ok r)
    (hbad : bad.resolve tags = Except.error e) :
    link_tags_loop tags (l1 ++ bad :: l2) =
      Except.error (LinkingError.TagError e) := by
  induction l1 with
  | nil => simp [link_tags_loop, hbad]
  | cons d rest ih =>
    obtain ⟨r, hr⟩ := hok d (by simp)
    have h2 := ih (fun x hx => hok x (by simp [hx]))
    simp [link_tags_loop, hr, h2]

/-- C7 (amended): for every line sequence whose real (non-tag) lines fit
within the 32-word memory, if some real line carries a tag reference that
the built symbol table does not resolve, then linking fails with
`TagError.UnknownTagName` carrying the name in the first such line, and
no partial image is produced (the result is a bare error); `resolve_value`
passes a literal through unchanged and fails with the tag name exactly
when the lookup is absent.  Sequences with more than 32 real lines are
excluded: there the memory-size check fires first. -/
theorem unknown_tag_fails_fast
    (lines : List LineType) (l1 l2 : List UnlinkedData) (bad : UnlinkedData) (t : String)
    (hsplit : (inline_tags lines).map (fun p => p.2) = l1 ++ bad :: l2)
    (hlen : l1.length + 1 + l2.length ≤ MEMORY_WORDS)
    (hok : ∀ d ∈ l1, ∃ r, d.resolve (position_tags (inline_tags lines)) = Except.ok r)
    (hbad : bad.resolve (position_tags (inline_tags lines)) =
      Except.error (TagError.UnknownTagName t)) :
    link_parsed_lines lines =
      Except.error (LinkingError.TagError (TagError.UnknownTagName t)) ∧
    (∀ (tags : TagMap) (v : Int),
      UnlinkedData.resolve_value (Value.Value v) tags = Except.ok v) ∧
    (∀ (tags : TagMap) (name : String), tags name = none →
      UnlinkedData.resolve_value (Value.Tag name) tags = Except.error name) := by
  refine ⟨?_, fun tags v => rfl, ?_⟩
  · have hloop := link_tags_loop_append_error (position_tags (inline_tags lines))
      l1 l2 bad (TagError.UnknownTagName t) hok hbad
    have hlen2 : ¬ (l1 ++ bad :: l2).length > MEMORY_WORDS := by
      simp only [List.length_append, List.length_cons]
      omega
    simp only [link_parsed_lines, link_tags, hsplit, if_neg hlen2, hloop]
  · intro tags name h
    simp [UnlinkedData.resolve_value, UnlinkedData.get_tag, h]

/-- The line sequence of the spec’s fail-fast example: the tag
reference `missing` is never declared. -/
def missing_tag_lines : List LineType :=
  [LineType.Tag ("start"),
   LineType.Instruction (Instruction.Negate (Value.Value 2)),
   LineType.Instruction (Instruction.Jump (Value.Tag ("missing"))),
   LineType.Absolute (Value.Value 5)]

/-- C7 witness: linking the concrete program with the undeclared tag
reference `missing` fails with `UnknownTagName "missing"`. -/
theorem unknown_tag_fails_fast_witness :
    link_parsed_lines missing_tag_lines =
      Except.error (LinkingError.TagError (TagError.UnknownTagName ("missing"))) ∧
    UnlinkedData.resolve_value (Value.Value 7) TagMap.empty = Except.ok 7 := by
  have h := unknown_tag_fails_fast missing_tag_lines
    [UnlinkedData.Instruction (Instruction.Negate (Value.Value 2))]
    [UnlinkedData.Absolute (Value.Value 5)]
    (UnlinkedData.Instruction (Instruction.Jump (Value.Tag ("missing")))) ("missing")
    rfl (by decide)
    (by
      intro d hd
      simp only [List.mem_singleton] at hd
      subst hd
      exact ⟨BabyInstruction.Negate 2, rfl⟩)
    rfl
  exact ⟨h.1, h.2.1 TagMap.empty 7⟩

/-- A 33-line program each of whose lines holds an unresolvable tag
reference. -/
def oversized_lines : List LineType :=
  List.replicate 33 (LineType.Absolute (Value.Tag ("missing")))

/-- C7 counterexample: on a 33-line sequence containing a tag reference
absent from the symbol table, linking returns `MemoryExceedingError 33`,
not `UnknownTagName` â the size check precedes tag resolution. -/
theorem unknown_tag_precedence_counterexample :
    link_parsed_lines oversized_lines =
      Except.error (LinkingError.MemoryExceedingError 33) ∧
    position_tags (inline_tags oversized_lines) ("missing") = none ∧
    UnlinkedData.resolve (UnlinkedData.Absolute (Value.Tag ("missing")))
      (position_tags (inline_tags oversized_lines)) =
      Except.error (TagError.UnknownTagName ("missing")) := by
  refine ⟨rfl, rfl, rfl⟩


/-! ## C8 â tag resolution round trip -/

/-- The line sequence of the spec’s round-trip example. -/
def round_trip_lines : List LineType :=
  [LineType.Tag ("start"),
   LineType.Instruction (Instruction.Negate (Value.Value 2)),
   LineType.Instruction (Instruction.Jump (Value.Tag ("start"))),
   LineType.Absolute (Value.Value 5)]

/-- C8: linking `[Tag "start", Negate(Literal 2), Jump(TagRef "start"),
Absolute(Literal 5)]` succeeds with the three-entry program
`[Negate 2, Jump 0, AbsoluteValue 5]` (encoding to `[16386, 0, 5]`), the
tag `start` resolving to position `0`; the tag declaration line is not a
memory entry itself but labels the next real line (only the second,
third and fourth lines survive inlining, the first of them tagged). -/
theorem tag_resolution_round_trip :
    (∃ d : LinkerData,
      link_parsed_lines round_trip_lines = Except.ok d ∧
      d.instructions = [BabyInstruction.Negate 2, BabyInstruction.Jump 0,
        BabyInstruction.AbsoluteValue 5] ∧
      d.instructions.map BabyInstruction.to_number = [16386, 0, 5] ∧
      d.tags ("start") = some 0) ∧
    (inline_tags round_trip_lines).map (fun p => p.1) =
      [some ("start"), none, none] := by
  refine ⟨⟨LinkerData.mk
    [BabyInstruction.Negate 2, BabyInstruction.Jump 0, BabyInstruction.AbsoluteValue 5]
    (position_tags (inline_tags round_trip_lines)), ?_, rfl, by decide, ?_⟩, by decide⟩
  · rfl
  · rfl

/-! ## C9 â duplicate tags resolve to the later position -/

/-- `position_tags` generalised to an arbitrary enumeration offset and
starting table, for reasoning about list concatenation. -/
def position_tags_from (n : Nat) (lines : List (Option String × UnlinkedData))
    (m : TagMap) : TagMap :=
  ((List.enumFrom n lines).filterMap (fun p =>
    match p.2.1 with
    | some v => some (v, (p.1 : Int))
    | none => none)).foldl (fun tbl kv => tbl.insert kv.1 kv.2) m

/-- `position_tags` is the offset-`0` instance over the empty table. -/
theorem position_tags_eq_from (lines : List (Option String × UnlinkedData)) :
    position_tags lines = position_tags_from 0 lines TagMap.empty := rfl

/-- Prepending a tagged line inserts its name at the current offset. -/
theorem position_tags_from_cons_some (n : Nat) (v : String) (d : UnlinkedData)
    (rest : List (Option String × UnlinkedData)) (m : TagMap) :
    position_tags_from n ((some v, d) :: rest) m =
      position_tags_from (n + 1) rest (m.insert v (n : Int)) := rfl

/-- Prepending an untagged line only advances the offset. -/
theorem position_tags_from_cons_none (n : Nat) (d : UnlinkedData)
    (rest : List (Option String × UnlinkedData)) (m : TagMap) :
    position_tags_from n ((none, d) :: rest) m =
      position_tags_from (n + 1) rest m := rfl

/-- Splitting the fold at a list concatenation. -/
theorem position_tags_from_append (xs ys : List (Option String × UnlinkedData)) :
    ∀ (n : Nat) (m : TagMap),
      position_tags_from n (xs ++ ys) m =
        position_tags_from (n + xs.length) ys (position_tags_from n xs m) := by
  induction xs with
  | nil =>
    intro n m
    simp [position_tags_from]
  | cons x rest ih =>
    intro n m
    obtain ⟨t, d⟩ := x
    cases t with
    | some v =>
      rw [List.cons_append, position_tags_from_cons_some,
        position_tags_from_cons_some, ih]
      simp only [List.length_cons]
      ring_nf
    | none =>
      rw [List.cons_append, position_tags_from_cons_none,
        position_tags_from_cons_none, ih]
      simp only [List.length_cons]
      ring_nf

/-- Lines none of which carry the tag `t` leave the table’s entry for
`t` unchanged. -/
theorem position_tags_from_notin (t : String) :
    ∀ (L : List (Option String × UnlinkedData)) (k : Nat) (m : TagMap),
      (∀ p ∈ L, p.1 ≠ some t) → position_tags_from k L m t = m t := by
  intro L
  induction L with
  | nil =>
    intro k m _
    rfl
  | cons p rest ih =>
    intro k m h
    obtain ⟨tag, d⟩ := p
    cases tag with
    | some v =>
      have hv : v ≠ t := by
        intro hvt
        exact h (some v, d) (by simp) (by rw [hvt])
      rw [position_tags_from_cons_some, ih (k + 1) _ (fun x hx => h x (by simp [hx]))]
      simp [TagMap.insert, Ne.symm hv]
    | none =>
      rw [position_tags_from_cons_none]
      exact ih (k + 1) m (fun x hx => h x (by simp [hx]))

/-- C9: when the same tag name labels two real lines â positions
`l1.length` and `l1.length + 1 + l2.length` of the inlined sequence â and
no later line carries it, the built symbol table maps the name to the
position of the later occurrence: the later insertion overwrites the
earlier one. -/
theorem duplicate_tag_last_wins
    (l1 l2 l3 : List (Option String × UnlinkedData)) (t : String)
    (d1 d2 : UnlinkedData) (h : ∀ p ∈ l3, p.1 ≠ some t) :
    position_tags (l1 ++ (some t, d1) :: (l2 ++ (some t, d2) :: l3)) t =
      some ((l1.length + 1 + l2.length : Nat) : Int) := by
  rw [position_tags_eq_from, position_tags_from_append,
    position_tags_from_cons_some, position_tags_from_append,
    position_tags_from_cons_some, position_tags_from_notin t l3 _ _ h]
  simp only [TagMap.insert, if_pos rfl, Nat.zero_add]
  norm_num

/-- C9 witness: with the tag `a` labelling both entries of a two-line
sequence, the symbol table maps `a` to the later position `1`. -/
theorem duplicate_tag_last_wins_witness :
    position_tags [(some ("a"), UnlinkedData.Absolute (Value.Value 1)),
      (some ("a"), UnlinkedData.Absolute (Value.Value 2))] ("a") = some 1 := by
  have h := duplicate_tag_last_wins [] [] [] ("a")
    (UnlinkedData.Absolute (Value.Value 1)) (UnlinkedData.Absolute (Value.Value 2))
    (by simp)
  simpa using h

end Baby
